import Mathlib

/-!
Shallow embedding of the NOAA-EPIC/anemoi-training fragment:
the weighted losses (anemoi/training/losses/mse.py, anemoi/training/losses/mae.py)
and the validation plotting callbacks
(anemoi/training/diagnostics/callbacks/plotting.py).

Tensor scalars are modelled as `Option ℚ`: `some q` is a finite value, `none`
is IEEE NaN.  IEEE infinities are not modelled: division by zero is mapped to
`none`; every theorem below either excludes zero denominators by hypothesis or
is insensitive to the distinction.
-/

/-- A tensor element: `some q` is a finite value, `none` is NaN. -/
abbrev V : Type := Option ℚ

/-- Addition with NaN propagation. -/
def vadd : V → V → V
  | some a, some b => some (a + b)
  | _, _ => none

/-- Subtraction with NaN propagation. -/
def vsub : V → V → V
  | some a, some b => some (a - b)
  | _, _ => none

/-- Multiplication with NaN propagation (IEEE: `0 * NaN = NaN`). -/
def vmul : V → V → V
  | some a, some b => some (a * b)
  | _, _ => none

/-- torch.square with NaN propagation. -/
def vsq : V → V
  | some a => some (a * a)
  | none => none

/-- torch.abs with NaN propagation. -/
def vabs : V → V
  | some a => some |a|
  | none => none

/-- Division. NaN propagates; a zero denominator is mapped to NaN (IEEE would
give an infinity for a nonzero numerator; no theorem relies on that case). -/
def vdiv : V → V → V
  | some a, some b => if b = 0 then none else some (a / b)
  | _, _ => none

/-- torch.sum (`ig = false`) and torch.nansum (`ig = true`) over an index set:
the plain sum is NaN as soon as one entry is NaN, nansum treats NaN as 0. -/
def vsum {ι : Type} (ig : Bool) (s : Finset ι) (f : ι → V) : V :=
  if ig then some (∑ i ∈ s, (f i).getD 0)
  else if ∀ i ∈ s, (f i).isSome = true then some (∑ i ∈ s, (f i).getD 0) else none

/-- torch.mean (`ig = false`) and torch.nanmean (`ig = true`) over an index
set: the plain mean is sum divided by count (NaN on a NaN entry or an empty
set), nanmean averages the non-NaN entries (NaN when all entries are NaN). -/
def vmean {ι : Type} (ig : Bool) (s : Finset ι) (f : ι → V) : V :=
  if ig then
    let t := s.filter (fun i => (f i).isSome = true)
    if t.card = 0 then none else some ((∑ i ∈ t, (f i).getD 0) / (t.card : ℚ))
  else vdiv (vsum false s f) (some (s.card : ℚ))

/-- A rank-3 tensor of shape `(b, n, v)` = (batch, lat*lon nodes, variables),
the shape documented for `WeightedMSELoss.forward`. -/
abbrev Tensor3 (b n v : Nat) : Type := Fin b → Fin n → Fin v → V

/-- Result of a loss forward pass, with its tensor rank made explicit:
`r0` is a 0-dim scalar, `r1` is a 1-dim tensor over the variable axis. -/
inductive MResult (v : Nat) : Type where
  | r0 (x : V)
  | r1 (xs : Fin v → V)

/-- Number of axes of a loss result. -/
def MResult.ndim {v : Nat} : MResult v → Nat
  | .r0 _ => 0
  | .r1 _ => 1

/-- The result is exactly zero (a zero scalar, or a vector of zeros). -/
def MResult.isZero {v : Nat} : MResult v → Prop
  | .r0 x => x = some 0
  | .r1 xs => ∀ k, xs k = some 0

/-- Node-weighting part of `WeightedMSELoss.forward` (mse.py lines 62-74), on
the documented rank-3 shape `(bs, lat*lon, n_outputs)`.
With `squash`: `out = avg_function(out, dim=-1)` (shape `(b, n)`), then
`out = out * weights.expand_as(out)`, `out /= sum_function(weights.expand_as(out))`
(the expanded weights give `w p.2` at every `p : Fin b × Fin n`), and
`return sum_function(out)` — a 0-dim tensor.
Without `squash`: `out = out * weights[..., None].expand_as(out)`, then
`out /= sum_function(weights[..., None].expand_as(out), axis=(0, 1, 2))` and
`return sum_function(out, axis=(0, 1, 2))`; on a rank-3 tensor the axis tuple
`(0, 1, 2)` covers all axes, so both torch.sum calls produce 0-dim tensors. -/
def mse_weighting {b n v : Nat} (ig : Bool) (w : Fin n → ℚ) (out : Tensor3 b n v)
    (squash : Bool) : MResult v :=
  if squash then
    let D : V := vsum ig Finset.univ (fun q : Fin b × Fin n => some (w q.2))
    MResult.r0 (vsum ig Finset.univ (fun p : Fin b × Fin n =>
      vdiv (vmul (vmean ig Finset.univ (fun k => out p.1 p.2 k)) (some (w p.2))) D))
  else
    let D : V := vsum ig Finset.univ (fun q : Fin b × Fin n × Fin v => some (w q.2.1))
    MResult.r0 (vsum ig Finset.univ (fun p : Fin b × Fin n × Fin v =>
      vdiv (vmul (out p.1 p.2.1 p.2.2) (some (w p.2.1))) D))

/-- `WeightedMSELoss.forward` (mse.py lines 39-74) on the documented rank-3
shape: `out = torch.square(pred - target)`, then `out *= ivar` when the
`data_variances` buffer is present (broadcast along the variable axis), then
the node-weighting of `mse_weighting`.  `ig` is the `ignore_nans` flag chosen
in `__init__` (it selects nanmean/nansum instead of mean/sum throughout). -/
def mse_forward {b n v : Nat} (ig : Bool) (w : Fin n → ℚ) (ivar : Option (Fin v → ℚ))
    (pred target : Tensor3 b n v) (squash : Bool) : MResult v :=
  let out : Tensor3 b n v := fun i j k => vsq (vsub (pred i j k) (target i j k))
  let out : Tensor3 b n v :=
    match ivar with
    | some iv => fun i j k => vmul (out i j k) (some (iv k))
    | none => out
  mse_weighting ig w out squash

/-- The same source lines (mse.py 62-74) at the rank-4 shape
`(bs, ensemble, lat*lon, n_outputs)` that `PlotLoss._plot` actually passes at
run time: here `axis=(0, 1, 2)` leaves the trailing variable axis, so the
`squash = false` branch returns a rank-1 tensor over the variables. -/
def mse_weighting4 {b e n v : Nat} (ig : Bool) (w : Fin n → ℚ)
    (out : Fin b → Fin e → Fin n → Fin v → V) (squash : Bool) : MResult v :=
  if squash then
    let D : V := vsum ig Finset.univ (fun q : Fin b × Fin e × Fin n => some (w q.2.2))
    MResult.r0 (vsum ig Finset.univ (fun p : Fin b × Fin e × Fin n =>
      vdiv (vmul (vmean ig Finset.univ (fun k => out p.1 p.2.1 p.2.2 k)) (some (w p.2.2))) D))
  else
    let D : V := vsum ig Finset.univ (fun q : Fin b × Fin e × Fin n => some (w q.2.2))
    MResult.r1 (fun k => vsum ig Finset.univ (fun p : Fin b × Fin e × Fin n =>
      vdiv (vmul (out p.1 p.2.1 p.2.2 k) (some (w p.2.2))) D))

/-- Concrete node weights for the documented-shape evaluation: two nodes. -/
def c1_w : Fin 2 → ℚ := fun _ => 1

/-- Concrete prediction of the documented shape `(1, 2, 2)`. -/
def c1_pred : Tensor3 1 2 2 := fun _ j k => some ((j : ℚ) + (k : ℚ))

/-- Concrete target of the documented shape `(1, 2, 2)`: all zeros. -/
def c1_target : Tensor3 1 2 2 := fun _ _ _ => some 0

/-- Concrete rank-4 tensor `(1, 1, 2, 2)`, the run-time shape. -/
def c1_out4 : Fin 1 → Fin 1 → Fin 2 → Fin 2 → V := fun _ _ j k => some ((j : ℚ) + (k : ℚ))

/-- Modelled from the spec: `BaseWeightedLoss.scale_by_node_weights`
(anemoi/training/losses/weightedloss.py) is imported by mae.py but is not part
of this source fragment.  Spec §4.1: node-weighting is the normalized weighted
sum `sum(out * weights) / sum(weights)` over the spatial axis; `squash = true`
first averages the variable axis and yields a scalar, `squash = false`
preserves the variable axis; NaN-tolerant mode (`ig`) uses the NaN-ignoring
mean/sum instead of mean/sum throughout. -/
def scale_by_node_weights {b n v : Nat} (ig : Bool) (w : Fin n → ℚ) (out : Tensor3 b n v)
    (squash : Bool) : MResult v :=
  let D : V := vsum ig Finset.univ (fun q : Fin b × Fin n => some (w q.2))
  if squash then
    MResult.r0 (vdiv (vsum ig Finset.univ (fun p : Fin b × Fin n =>
      vmul (vmean ig Finset.univ (fun k => out p.1 p.2 k)) (some (w p.2)))) D)
  else
    MResult.r1 (fun k => vdiv (vsum ig Finset.univ (fun p : Fin b × Fin n =>
      vmul (out p.1 p.2 k) (some (w p.2)))) D)

/-- Modelled from the spec: `BaseWeightedLoss.scale` is not part of this source
fragment.  Spec §4.1: the elementwise loss is "optionally rescaled per output
feature (`feature_scale`) restricted to a provided subset of feature indices
(`feature_indices`)"; `fw k` stands for the feature weight selected for the
k-th feature actually passed in `pred`/`target`. -/
def mae_feature_scale {b n v : Nat} (fscale : Bool) (fw : Fin v → ℚ) (out : Tensor3 b n v) :
    Tensor3 b n v :=
  if fscale then fun i j k => vmul (out i j k) (some (fw k)) else out

/-- `WeightedMAELoss.forward` (mae.py lines 51-83):
`out = torch.abs(pred - target)`, then `out = self.scale(out, feature_indices)`
when `feature_scale`, then `return self.scale_by_node_weights(out, squash)`
(the latter two methods are spec-modelled above, as weightedloss.py is not in
the fragment). -/
def mae_forward {b n v : Nat} (ig : Bool) (w : Fin n → ℚ) (fscale : Bool) (fw : Fin v → ℚ)
    (pred target : Tensor3 b n v) (squash : Bool) : MResult v :=
  scale_by_node_weights ig w
    (mae_feature_scale fscale fw (fun i j k => vabs (vsub (pred i j k) (target i j k)))) squash

/-- The spec formula for node-weighting, written from the spec words: the
normalized weighted sum `sum(out * weights) / sum(weights)`, both sums running
over every element of the (expanded) weight tensor. -/
def spec_normalized_weighted_sum {b n v : Nat} (w : Fin n → ℚ)
    (out : Fin b → Fin n → Fin v → ℚ) : ℚ :=
  (∑ p : Fin b × Fin n × Fin v, out p.1 p.2.1 p.2.2 * w p.2.1) /
    (∑ p : Fin b × Fin n × Fin v, w p.2.1)

/-- The spec formula for node-weighting with the variable axis kept: for each
variable `k`, the normalized weighted sum over the remaining axes. -/
def spec_normalized_weighted_sum_var {b n v : Nat} (w : Fin n → ℚ)
    (out : Fin b → Fin n → Fin v → ℚ) (k : Fin v) : ℚ :=
  (∑ p : Fin b × Fin n, out p.1 p.2 k * w p.2) / (∑ p : Fin b × Fin n, w p.2)

/-- `automatically_determine_group` (plotting.py lines 385-388): the first
underscore-separated prefix of the parameter name is its group name. -/
def automatically_determine_group (name : String) : String :=
  (name.splitOn "_").headD ""

/-- Group lookup of `PlotLoss.sort_and_color_by_parameter_group` (lines
396-408): the first explicitly configured group whose parameter list contains
the name, else the automatically determined group.  `groups` is the
`parameter_groups` dict as an association list in insertion order. -/
def assign_group (groups : List (String × List String)) (name : String) : String :=
  match groups.find? (fun g => g.2.contains name) with
  | some g => g.1
  | none => automatically_determine_group name

/-- Group assignment of `PlotLoss.sort_and_color_by_parameter_group` (lines
390-424).  For at most 15 parameters every parameter keeps its full name as
its group (line 393).  Otherwise each name is mapped through `assign_group`,
and afterwards every group that occurs exactly once and is not a key of the
config dict is replaced by "other" (lines 410-423; the np.unique
inverse-indexing `unique_group_list[group_inverse]` applies that replacement
elementwise). -/
def parameters_to_groups (groups : List (String × List String)) (names : List String) :
    List String :=
  if names.length ≤ 15 then names
  else
    let ptg := names.map (assign_group groups)
    ptg.map (fun g => if 1 < ptg.count g || groups.any (fun q => q.1 == g) then g else "other")

/-- Written from the claim words: the explicit user-provided group of a name,
when the name belongs to one. -/
def spec_explicit_group (groups : List (String × List String)) (name : String) : Option String :=
  (groups.find? (fun g => g.2.contains name)).map Prod.fst

/-- Written from the claim words: explicit group if the name belongs to one,
otherwise the first underscore-separated piece of the name. -/
def spec_base_group (groups : List (String × List String)) (name : String) : String :=
  (spec_explicit_group groups name).getD ((name.splitOn "_").headD "")

/-- Written from the claim words: the group of the i-th parameter.  For more
than 15 names, the base group, except that a base group carrying exactly one
parameter and not named in the explicit configuration becomes "other"; for at
most 15 names, the parameter keeps its full name. -/
def spec_group_of (groups : List (String × List String)) (names : List String) (i : Nat) :
    String :=
  if names.length ≤ 15 then names.getD i ""
  else
    let base := spec_base_group groups (names.getD i "")
    if names.countP (fun nm => spec_base_group groups nm == base) == 1
        && !(groups.any (fun q => q.1 == base)) then "other"
    else base

/-- Guard of `LongRolloutPlots.on_validation_batch_end` (line 289): the plot
body runs iff `batch_idx % plot_frequency == 0` and
`(current_epoch + 1) % eval_frequency == 0`. -/
def longRollout_fires (plotFrequency evalFrequency batchIdx currentEpoch : Nat) : Bool :=
  batchIdx % plotFrequency == 0 && (currentEpoch + 1) % evalFrequency == 0

/-- Guard of `PlotLoss.on_validation_batch_end` (line 516). -/
def plotLoss_fires (plotFrequency batchIdx : Nat) : Bool :=
  batchIdx % plotFrequency == 0

/-- Guard of `PlotSample.on_validation_batch_end` (line 609). -/
def plotSample_fires (plotFrequency batchIdx : Nat) : Bool :=
  batchIdx % plotFrequency == 0

/-- Guard of `PlotAdditionalMetrics.on_validation_batch_end` (line 732). -/
def plotAdditionalMetrics_fires (plotFrequency batchIdx : Nat) : Bool :=
  batchIdx % plotFrequency == 0

/-- `GraphNodeTrainableFeaturesPlot.on_validation_epoch_start` (lines 330-334)
contains no frequency guard at all: it calls `self.plot` unconditionally on
every validation epoch start (rank-gating aside). -/
def graphNode_epoch_start_fires : Bool := true

/-- Guard of `GraphEdgeTrainableFeaturesPlot.on_validation_epoch_end` (line
358): `trainer.current_epoch % self.epoch_freq == 0 and global_rank == 0`,
with `epoch_freq` hard-wired to 5 in `__init__` (line 345). -/
def graphEdge_epoch_end_fires (currentEpoch globalRank : Nat) : Bool :=
  currentEpoch % 5 == 0 && globalRank == 0

/-- A Python exception as far as the dispatcher manipulates it: its class
name, its message (the stringified arguments) and the traceback text of its
raise site.  Structured payload fields beyond the message are not modelled
(the source itself discards them, cf. spec §9). -/
structure PyExc : Type where
  cls : String
  msg : String
  tb : String

/-- traceback.format_exc() for the exception currently being handled: the
formatted traceback followed by the exception class and message. -/
def format_exc (e : PyExc) : String :=
  "Traceback (most recent call last):\n" ++ e.tb ++ "\n" ++ e.cls ++ ": " ++ e.msg

/-- Outcome of running a plot function: normal return, or an exception. -/
inductive PlotOutcome : Type where
  | ok
  | raised (e : PyExc)

/-- `ParallelExecutor._function_wrapper` (plotting.py lines 62-67): runs `fn`;
on an exception it re-raises `sys.exc_info()[0](traceback.format_exc())` from
the original — a new exception of the same class whose message is the
formatted original traceback. -/
def function_wrapper (r : PlotOutcome) : PlotOutcome :=
  match r with
  | .ok => .ok
  | .raised e => .raised { cls := e.cls, msg := format_exc e, tb := e.tb }

/-- Python logging severity values. -/
def logLevelDebug : Nat := 10

/-- Python logging severity values. -/
def logLevelInfo : Nat := 20

/-- Python logging severity values. -/
def logLevelWarning : Nat := 30

/-- Python logging severity values (LOGGER.exception logs at this level). -/
def logLevelError : Nat := 40

/-- A log record: its severity and whether exception info (the traceback of
the exception being handled) is attached, as LOGGER.exception does. -/
structure LogEvent : Type where
  level : Nat
  excInfo : Bool
deriving DecidableEq

/-- Whether the process keeps running after the retrieval point, or exits. -/
inductive ProcEnd : Type where
  | continued
  | exited (code : Nat)
deriving DecidableEq

/-- The retrieval point of `BasePlotCallback._async_plot` (lines 150-161): the
submitted call runs `_function_wrapper` around `self._plot` on the worker;
`future.result()` re-raises its exception in the calling context, where the
handler runs `LOGGER.exception(...)` and then `sys.exit(1)`.  The value is the
process outcome together with the emitted log records. -/
def async_plot_retrieval (workerOutcome : PlotOutcome) : ProcEnd × List LogEvent :=
  match function_wrapper workerOutcome with
  | .ok => (.continued, [])
  | .raised _ => (.exited 1, [{ level := logLevelError, excInfo := true }])

/-- The severities plotting.py ever logs at: LOGGER.debug (line 177),
LOGGER.info (lines 277, 535, 634), LOGGER.warning (line 441) and
LOGGER.exception (line 160, severity ERROR). -/
def plotting_module_log_levels : List Nat :=
  [logLevelDebug, logLevelInfo, logLevelWarning, logLevelError]

/-- Observable side effects of the plotting callbacks: directory creation and
file writes, experiment-logger uploads, calls into the rendering functions of
anemoi.training.diagnostics.plots, and figure release. -/
inductive PlotEff : Type where
  | mkdirCall (path : String)
  | saveFile (path : String)
  | upload (backend : String)
  | render (fn : String)
  | closeFigure
deriving DecidableEq

/-- pytorch_lightning's `rank_zero_only` decorator: the wrapped body runs only
on the process with rank 0; on every other rank the call is a no-op. -/
def rank_zero_only (rank : Nat) (body : List PlotEff) : List PlotEff :=
  if rank = 0 then body else []

/-- Zero padding of the epoch number in the figure file name (`{epoch:03d}`). -/
def zero_pad3 (epoch : Nat) : String :=
  let s := toString epoch
  if s.length < 3 then String.mk (List.replicate (3 - s.length) '0') ++ s else s

/-- `BasePlotCallback._output_figure` (lines 99-127), `@rank_zero_only`: when
`save_basedir` is set, build `<basedir>/plots/<tag>_epoch<NNN>.png`, create the
parent directory, save the figure, optionally upload to wandb and/or mlflow;
always close the figure. -/
def output_figure (rank : Nat) (saveBasedir : Option String) (wandb mlflow : Bool)
    (tag : String) (epoch : Nat) : List PlotEff :=
  rank_zero_only rank
    ((match saveBasedir with
      | some base =>
        [PlotEff.mkdirCall (base ++ "/plots"),
         PlotEff.saveFile (base ++ "/plots/" ++ tag ++ "_epoch" ++ zero_pad3 epoch ++ ".png")]
          ++ (if wandb then [PlotEff.upload "wandb"] else [])
          ++ (if mlflow then [PlotEff.upload "mlflow"] else [])
      | none => []) ++ [PlotEff.closeFigure])

/-- Effects of `GraphNodeTrainableFeaturesPlot._plot` (lines 319-328),
`@rank_zero_only`: render the node features and output the figure.  In
asynchronous mode the same body runs on the worker thread of the same process,
so its effects are identical. -/
def graphNode_plot (rank : Nat) (saveBasedir : Option String) (wandb mlflow : Bool)
    (epoch : Nat) : List PlotEff :=
  rank_zero_only rank
    (PlotEff.render "plot_graph_node_features" ::
      output_figure rank saveBasedir wandb mlflow "node_trainable_params" epoch)

/-- `GraphNodeTrainableFeaturesPlot.on_validation_epoch_start` (lines 330-334),
`@rank_zero_only`: always dispatches the plot. -/
def graphNode_on_validation_epoch_start (rank : Nat) (saveBasedir : Option String)
    (wandb mlflow : Bool) (epoch : Nat) : List PlotEff :=
  rank_zero_only rank (graphNode_plot rank saveBasedir wandb mlflow epoch)

/-- Effects of `GraphEdgeTrainableFeaturesPlot._plot` (lines 347-355).  This
method carries no `rank_zero_only` decorator of its own; `_output_figure`
still does. -/
def graphEdge_plot (rank : Nat) (saveBasedir : Option String) (wandb mlflow : Bool)
    (epoch : Nat) : List PlotEff :=
  PlotEff.render "plot_graph_edge_features" ::
    output_figure rank saveBasedir wandb mlflow "edge_trainable_params" epoch

/-- `GraphEdgeTrainableFeaturesPlot.on_validation_epoch_end` (lines 357-360):
guarded by `current_epoch % 5 == 0 and pl_module.global_rank == 0`; the
process rank and `global_rank` agree on a given process. -/
def graphEdge_on_validation_epoch_end (rank : Nat) (currentEpoch : Nat)
    (saveBasedir : Option String) (wandb mlflow : Bool) : List PlotEff :=
  if currentEpoch % 5 = 0 ∧ rank = 0 then
    graphEdge_plot rank saveBasedir wandb mlflow currentEpoch
  else []

/-- Effects of `PlotLoss._plot` (lines 468-506), `@rank_zero_only`: one
rendered loss figure per rollout step, each saved through `_output_figure`. -/
def plotLoss_plot (rank : Nat) (rollout : Nat) (saveBasedir : Option String)
    (wandb mlflow : Bool) (epoch : Nat) : List PlotEff :=
  rank_zero_only rank
    ((List.range rollout).flatMap (fun s =>
      PlotEff.render "plot_loss" ::
        output_figure rank saveBasedir wandb mlflow
          ("loss_rstep_rstep" ++ toString s ++ "_rank0") epoch))

/-- `PlotLoss.on_validation_batch_end` (lines 508-517): dispatches the plot
when `batch_idx % plot_frequency == 0` (via `self.plot`, which is the
rank-zero-gated `_plot` or `_async_plot`). -/
def plotLoss_on_validation_batch_end (rank : Nat) (plotFrequency batchIdx rollout : Nat)
    (saveBasedir : Option String) (wandb mlflow : Bool) (epoch : Nat) : List PlotEff :=
  if batchIdx % plotFrequency = 0 then
    plotLoss_plot rank rollout saveBasedir wandb mlflow epoch
  else []

/-- Effects of `PlotSample._plot` (lines 537-599), `@rank_zero_only`. -/
def plotSample_plot (rank : Nat) (rollout : Nat) (saveBasedir : Option String)
    (wandb mlflow : Bool) (epoch : Nat) : List PlotEff :=
  rank_zero_only rank
    ((List.range rollout).flatMap (fun s =>
      PlotEff.render "plot_predicted_multilevel_flat_sample" ::
        output_figure rank saveBasedir wandb mlflow
          ("gnn_pred_val_sample_rstep" ++ toString s) epoch))

/-- `PlotSample.on_validation_batch_end` (lines 601-610). -/
def plotSample_on_validation_batch_end (rank : Nat) (plotFrequency batchIdx rollout : Nat)
    (saveBasedir : Option String) (wandb mlflow : Bool) (epoch : Nat) : List PlotEff :=
  if batchIdx % plotFrequency = 0 then
    plotSample_plot rank rollout saveBasedir wandb mlflow epoch
  else []

/-- Effects of `PlotAdditionalMetrics._plot` (lines 636-722), `@rank_zero_only`:
per rollout step a histogram figure when `parameters_histogram` is configured
and a spectrum figure when `parameters_spectrum` is configured. -/
def plotAdditionalMetrics_plot (rank : Nat) (rollout : Nat) (histogram spectrum : Bool)
    (saveBasedir : Option String) (wandb mlflow : Bool) (epoch : Nat) : List PlotEff :=
  rank_zero_only rank
    ((List.range rollout).flatMap (fun s =>
      (if histogram then
        PlotEff.render "plot_histogram" ::
          output_figure rank saveBasedir wandb mlflow ("gnn_pred_val_histo_rstep_" ++ toString s)
            epoch
      else [])
        ++ (if spectrum then
          PlotEff.render "plot_power_spectrum" ::
            output_figure rank saveBasedir wandb mlflow ("gnn_pred_val_spec_rstep_" ++ toString s)
              epoch
        else [])))

/-- `PlotAdditionalMetrics.on_validation_batch_end` (lines 724-733). -/
def plotAdditionalMetrics_on_validation_batch_end (rank : Nat)
    (plotFrequency batchIdx rollout : Nat) (histogram spectrum : Bool)
    (saveBasedir : Option String) (wandb mlflow : Bool) (epoch : Nat) : List PlotEff :=
  if batchIdx % plotFrequency = 0 then
    plotAdditionalMetrics_plot rank rollout histogram spectrum saveBasedir wandb mlflow epoch
  else []

/-- Effects of `LongRolloutPlots._plot` (lines 186-277), `@rank_zero_only`: a
rendered figure per requested rollout checkpoint. -/
def longRollout_plot (rank : Nat) (checkpoints : Nat) (saveBasedir : Option String)
    (wandb mlflow : Bool) (epoch : Nat) : List PlotEff :=
  rank_zero_only rank
    ((List.range checkpoints).flatMap (fun s =>
      PlotEff.render "plot_predicted_multilevel_flat_sample" ::
        output_figure rank saveBasedir wandb mlflow
          ("gnn_pred_val_sample_rstep" ++ toString s ++ "_rank0") epoch))

/-- `LongRolloutPlots.on_validation_batch_end` (lines 279-299),
`@rank_zero_only`, additionally guarded by the two frequency conditions. -/
def longRollout_on_validation_batch_end (rank : Nat)
    (plotFrequency evalFrequency batchIdx currentEpoch checkpoints : Nat)
    (saveBasedir : Option String) (wandb mlflow : Bool) : List PlotEff :=
  rank_zero_only rank
    (if batchIdx % plotFrequency = 0 ∧ (currentEpoch + 1) % evalFrequency = 0 then
      longRollout_plot rank checkpoints saveBasedir wandb mlflow currentEpoch
    else [])

/-- The computable core of the tuple cached by
`PlotLoss.sort_and_color_by_parameter_group` (lines 381-466): the stable sort
order of the parameters by group and the per-parameter group assignment.  The
bar colors, x-tick positions and legend patches of the cached tuple are
functions of these two together with the fixed palettes. -/
structure GroupData : Type where
  sortIdx : List Nat
  groupOf : List String

/-- np.argsort(group_inverse, kind="stable") (line 427): indices ordered
stably by group name (np.unique assigns inverse indices in sorted group
order, so ordering by inverse index is ordering by group name). -/
def stable_argsort_by_group (ptg : List String) : List Nat :=
  (List.range ptg.length).mergeSort (fun i j =>
    decide (ptg.getD i "" < ptg.getD j "") || (ptg.getD i "" == ptg.getD j "" && decide (i ≤ j)))

/-- The value computed by `PlotLoss.sort_and_color_by_parameter_group` for a
given parameter-name list: identity order for at most 15 names (line 394),
else the stable by-group sort of the reassigned groups. -/
def sort_and_color (groups : List (String × List String)) (names : List String) : GroupData :=
  let ptg := parameters_to_groups groups names
  { sortIdx := if names.length ≤ 15 then List.range names.length else stable_argsort_by_group ptg,
    groupOf := ptg }

/-- The mutable state of a `PlotLoss` instance: `self.parameter_names`
(initialised to None in `__init__`, line 376, reassigned on every `_plot`
call, line 484) and the backing slot of the `@cached_property` (filled on
first access, reused forever after). -/
structure PlotLossState : Type where
  parameter_names : Option (List String)
  cached_sort_and_color : Option GroupData

/-- One `PlotLoss._plot` call as it touches the grouping state: line 484
reassigns `self.parameter_names`, then line 497 reads
`self.sort_and_color_by_parameter_group`, which computes and stores the value
on the first call and returns the stored value on every later call. -/
def plotLoss_plot_state_step (groups : List (String × List String)) (st : PlotLossState)
    (namesFromModule : List String) : GroupData × PlotLossState :=
  let st1 : PlotLossState :=
    { parameter_names := some namesFromModule,
      cached_sort_and_color := st.cached_sort_and_color }
  match st1.cached_sort_and_color with
  | some g => (g, st1)
  | none =>
    let g := sort_and_color groups namesFromModule
    (g, { parameter_names := st1.parameter_names, cached_sort_and_color := some g })

/-- A sequence of `PlotLoss._plot` calls, returning the grouping data each
call used. -/
def plotLoss_run (groups : List (String × List String)) (st : PlotLossState) :
    List (List String) → List GroupData
  | [] => []
  | ns :: rest =>
    let r := plotLoss_plot_state_step groups st ns
    r.1 :: plotLoss_run groups r.2 rest

/-- The everywhere-zero rank-3 tensor, the elementwise loss of a prediction
that equals its target. -/
def zeroT (b n v : Nat) : Tensor3 b n v := fun _ _ _ => some 0

/-- Concrete weights for the C4 witness: node 0 has weight zero. -/
def c4_w : Fin 2 → ℚ := fun j => if j = 0 then 0 else 1

/-- Concrete NaN-free baseline for the C4 witness. -/
def c4_pred : Tensor3 1 2 1 := fun _ _ _ => some 1

/-- The C4 witness prediction: NaN inserted at the zero-weight node 0. -/
def c4_pred_nan : Tensor3 1 2 1 := fun _ j _ => if j = 0 then none else some 1

/-- Constant-one prediction tensor for the C2 witness. -/
def c2_pred : Tensor3 1 1 1 := fun _ _ _ => some 1

/-- Concrete elementwise loss for the C3 witness. -/
def c3_outq : Fin 1 → Fin 1 → Fin 1 → ℚ := fun _ _ _ => 2

/-- Summation of a family of finite values is the finite sum, for torch.sum
and torch.nansum alike. -/
theorem vsum_some {ι : Type} (ig : Bool) (s : Finset ι) (g : ι → ℚ) :
    vsum ig s (fun i => some (g i)) = some (∑ i ∈ s, g i) := by
  cases ig <;> simp [vsum]

/-- torch.nansum is the sum of the entries with NaN read as 0. -/
theorem vsum_true_getD {ι : Type} (s : Finset ι) (f : ι → V) :
    vsum true s f = some (∑ i ∈ s, (f i).getD 0) := by
  simp [vsum]

/-- vsum only looks at the summand on the index set. -/
theorem vsum_congr {ι : Type} (ig : Bool) (s : Finset ι) {f g : ι → V}
    (h : ∀ i ∈ s, f i = g i) : vsum ig s f = vsum ig s g := by
  have hs : (∑ i ∈ s, (f i).getD 0) = ∑ i ∈ s, (g i).getD 0 :=
    Finset.sum_congr rfl (fun i hi => by rw [h i hi])
  have hc : (∀ i ∈ s, (f i).isSome = true) ↔ (∀ i ∈ s, (g i).isSome = true) := by
    constructor <;> intro hh i hi
    · rw [← h i hi]; exact hh i hi
    · rw [h i hi]; exact hh i hi
  cases ig
  · simp only [vsum, Bool.false_eq_true, if_false, hs]
    exact if_congr hc rfl rfl
  · simp only [vsum, if_true, hs]

/-- Mean of a family of finite values over a nonempty index set is the finite
average, for torch.mean and torch.nanmean alike. -/
theorem vmean_some {ι : Type} (ig : Bool) (s : Finset ι) (g : ι → ℚ) (hs : s.Nonempty) :
    vmean ig s (fun i => some (g i)) = some ((∑ i ∈ s, g i) / (s.card : ℚ)) := by
  have hcard : s.card ≠ 0 := Finset.card_ne_zero.mpr hs
  cases ig
  · have hq : ((s.card : ℚ)) ≠ 0 := by exact_mod_cast hcard
    simp [vmean, vsum_some, vdiv, hq]
  · have hfil : s.filter (fun i => (some (g i)).isSome = true) = s :=
      Finset.filter_true_of_mem (fun i _ => rfl)
    simp [vmean, hfil, hcard]

/-- vmean only looks at the entries on the index set. -/
theorem vmean_congr {ι : Type} (ig : Bool) (s : Finset ι) {f g : ι → V}
    (h : ∀ i ∈ s, f i = g i) : vmean ig s f = vmean ig s g := by
  cases ig
  · simp only [vmean, Bool.false_eq_true, if_false, vsum_congr false s h]
  · have hfil : s.filter (fun i => (f i).isSome = true) = s.filter (fun i => (g i).isSome = true) :=
      Finset.filter_congr (fun i hi => by rw [h i hi])
    have hsum : (∑ i ∈ s.filter (fun i => (g i).isSome = true), (f i).getD 0) =
        ∑ i ∈ s.filter (fun i => (g i).isSome = true), (g i).getD 0 :=
      Finset.sum_congr rfl (fun i hi => by rw [h i (Finset.mem_of_mem_filter i hi)])
    simp only [vmean, if_true, hfil, hsum]

/-- Once the cached-property slot is filled with `g`, every further plot call
returns `g`, whatever parameter names the calls carry. -/
theorem plotLoss_run_cached (groups : List (String × List String)) (g : GroupData)
    (l : List (List String)) :
    ∀ st : PlotLossState, st.cached_sort_and_color = some g →
      plotLoss_run groups st l = List.replicate l.length g := by
  induction l with
  | nil => intro st _; rfl
  | cons ns rest ih =>
    intro st h
    have hstep : plotLoss_plot_state_step groups st ns =
        (g, { parameter_names := some ns, cached_sort_and_color := some g }) := by
      simp [plotLoss_plot_state_step, h]
    show (plotLoss_plot_state_step groups st ns).1 ::
        plotLoss_run groups (plotLoss_plot_state_step groups st ns).2 rest = _
    rw [hstep, List.length_cons, List.replicate_succ]
    exact congrArg (g :: ·) (ih _ rfl)

/-- C1: on the shape documented for `WeightedMSELoss.forward`
(`(bs, lat*lon, n_outputs)`, rank 3), `squash = true` indeed drops the
variable axis, but `squash = false` does NOT retain it: `torch.sum(...,
axis=(0, 1, 2))` covers all three axes of a rank-3 tensor and produces a
0-dim scalar.  The identical source lines applied at the rank-4 run-time
shape `(bs, ensemble, lat*lon, n_outputs)` do retain the variable axis, as
the code comment "keep last dimension (variables) when summing weights"
intends. -/
theorem mse_documented_shape_squash_axis_evaluation :
    (mse_forward false c1_w none c1_pred c1_target true).ndim = 0 ∧
    (mse_forward false c1_w none c1_pred c1_target false).ndim = 0 ∧
    (mse_weighting4 false c1_w c1_out4 false).ndim = 1 :=
  ⟨rfl, rfl, rfl⟩

/-- C5: a plot function that raises is surfaced at the `future.result()`
retrieval point of `_async_plot` as an exception of the same class as
synchronous execution would have raised, with the original traceback captured
in its message; the dispatcher then logs one record at severity ERROR — the
highest severity plotting.py ever logs at — with exception info attached, and
exits the process with code 1 instead of continuing. -/
theorem async_plot_error_propagation (e : PyExc) :
    (∃ er, function_wrapper (.raised e) = .raised er ∧ er.cls = e.cls ∧
      ∃ s t, er.msg = s ++ (e.tb ++ t)) ∧
    async_plot_retrieval (.raised e) =
      (.exited 1, [{ level := logLevelError, excInfo := true }]) ∧
    plotting_module_log_levels.all (fun l => l ≤ logLevelError) = true := by
  refine ⟨⟨_, rfl, rfl, "Traceback (most recent call last):\n",
    "\n" ++ e.cls ++ ": " ++ e.msg, ?_⟩, rfl, by decide⟩
  simp [format_exc, String.append_assoc]

/-- C7 counterexample: not every validation plot callback is gated by
`batch_index % plot_frequency == 0` —
`GraphNodeTrainableFeaturesPlot.on_validation_epoch_start` plots
unconditionally, in particular in a state where a batch gate (batch index 1,
plot frequency 2) would be false. -/
theorem plot_frequency_gating_counterexample :
    ¬ (graphNode_epoch_start_fires = true → 1 % 2 = 0) := by decide

/-- C7 amended: each per-batch validation plot callback (PlotLoss, PlotSample,
PlotAdditionalMetrics) fires exactly when `batch_idx % plot_frequency == 0`,
the long-rollout variant exactly when additionally
`(current_epoch + 1) % eval_frequency == 0`; but the two graph-feature
callbacks are epoch-level and not gated by plot_frequency: the node variant
fires at every validation epoch start, the edge variant exactly when
`current_epoch % 5 == 0` on global rank 0.  (The positivity hypotheses record
that Python `%` raises on a zero modulus.) -/
theorem validation_plot_frequency_gates (pf ef bi ep r : Nat) (hpf : 0 < pf) (hef : 0 < ef) :
    (longRollout_fires pf ef bi ep = true ↔ bi % pf = 0 ∧ (ep + 1) % ef = 0) ∧
    (plotLoss_fires pf bi = true ↔ bi % pf = 0) ∧
    (plotSample_fires pf bi = true ↔ bi % pf = 0) ∧
    (plotAdditionalMetrics_fires pf bi = true ↔ bi % pf = 0) ∧
    graphNode_epoch_start_fires = true ∧
    (graphEdge_epoch_end_fires ep r = true ↔ ep % 5 = 0 ∧ r = 0) := by
  refine ⟨?_, ?_, ?_, ?_, rfl, ?_⟩ <;>
    simp [longRollout_fires, plotLoss_fires, plotSample_fires,
      plotAdditionalMetrics_fires, graphEdge_epoch_end_fires]

/-- Witness for the C7 theorem at plot frequency 1, eval frequency 1, batch
index 0, epoch 0, rank 0. -/
theorem validation_plot_frequency_gates_witness :
    (longRollout_fires 1 1 0 0 = true ↔ 0 % 1 = 0 ∧ (0 + 1) % 1 = 0) ∧
    (plotLoss_fires 1 0 = true ↔ 0 % 1 = 0) ∧
    (plotSample_fires 1 0 = true ↔ 0 % 1 = 0) ∧
    (plotAdditionalMetrics_fires 1 0 = true ↔ 0 % 1 = 0) ∧
    graphNode_epoch_start_fires = true ∧
    (graphEdge_epoch_end_fires 0 0 = true ↔ 0 % 5 = 0 ∧ 0 = 0) :=
  validation_plot_frequency_gates 1 1 0 0 0 (by decide) (by decide)

/-- C9: on a process whose rank is not 0, every plot hook of the module is a
no-op: `_output_figure` and each validation hook produce no filesystem
effects and no call into a rendering function (their effect lists are empty),
via the `rank_zero_only` decorator or the explicit `global_rank == 0` guard. -/
theorem nonzero_rank_plot_hooks_are_noops (rank : Nat) (hr : rank ≠ 0)
    (saveBasedir : Option String) (wandb mlflow histogram spectrum : Bool)
    (pf ef bi ep rollout checkpoints : Nat) (tag : String) :
    output_figure rank saveBasedir wandb mlflow tag ep = [] ∧
    graphNode_on_validation_epoch_start rank saveBasedir wandb mlflow ep = [] ∧
    graphEdge_on_validation_epoch_end rank ep saveBasedir wandb mlflow = [] ∧
    plotLoss_on_validation_batch_end rank pf bi rollout saveBasedir wandb mlflow ep = [] ∧
    plotSample_on_validation_batch_end rank pf bi rollout saveBasedir wandb mlflow ep = [] ∧
    plotAdditionalMetrics_on_validation_batch_end rank pf bi rollout histogram spectrum
      saveBasedir wandb mlflow ep = [] ∧
    longRollout_on_validation_batch_end rank pf ef bi ep checkpoints saveBasedir wandb
      mlflow = [] := by
  refine ⟨?_, ?_, ?_, ?_, ?_, ?_, ?_⟩ <;>
    simp [output_figure, graphNode_on_validation_epoch_start, graphNode_plot,
      graphEdge_on_validation_epoch_end, graphEdge_plot,
      plotLoss_on_validation_batch_end, plotLoss_plot,
      plotSample_on_validation_batch_end, plotSample_plot,
      plotAdditionalMetrics_on_validation_batch_end, plotAdditionalMetrics_plot,
      longRollout_on_validation_batch_end, longRollout_plot, rank_zero_only, hr]

/-- Witness for the C9 theorem on rank 1, with saving and both uploads
enabled and every gate satisfied. -/
theorem nonzero_rank_plot_hooks_are_noops_witness :
    output_figure 1 (some "/out") true true "gnn" 0 = [] ∧
    graphNode_on_validation_epoch_start 1 (some "/out") true true 0 = [] ∧
    graphEdge_on_validation_epoch_end 1 0 (some "/out") true true = [] ∧
    plotLoss_on_validation_batch_end 1 1 0 1 (some "/out") true true 0 = [] ∧
    plotSample_on_validation_batch_end 1 1 0 1 (some "/out") true true 0 = [] ∧
    plotAdditionalMetrics_on_validation_batch_end 1 1 0 1 true true (some "/out") true
      true 0 = [] ∧
    longRollout_on_validation_batch_end 1 1 1 0 0 1 (some "/out") true true = [] :=
  nonzero_rank_plot_hooks_are_noops 1 (by decide) (some "/out") true true true true
    1 1 0 0 1 1 "gnn"

/-- C10: on a fresh PlotLoss instance the sorting/coloring data is computed
exactly once, from the parameter names of the first plot call, and every later
plot call returns that first value unchanged, although `parameter_names` is
reassigned on every call — so a change of the parameter list after the first
call never affects the grouping used by later loss plots. -/
theorem plotloss_grouping_computed_once_and_reused (groups : List (String × List String))
    (ns : List String) (rest : List (List String)) :
    plotLoss_run groups { parameter_names := none, cached_sort_and_color := none }
        (ns :: rest) =
      List.replicate (rest.length + 1) (sort_and_color groups ns) ∧
    ∀ (st : PlotLossState) (nsx : List String),
      ((plotLoss_plot_state_step groups st nsx).2).parameter_names = some nsx := by
  constructor
  · have hstep : plotLoss_plot_state_step groups
        { parameter_names := none, cached_sort_and_color := none } ns =
        (sort_and_color groups ns,
          { parameter_names := some ns,
            cached_sort_and_color := some (sort_and_color groups ns) }) := by
      simp [plotLoss_plot_state_step]
    show (plotLoss_plot_state_step groups _ ns).1 ::
        plotLoss_run groups (plotLoss_plot_state_step groups _ ns).2 rest = _
    rw [hstep, List.replicate_succ]
    exact congrArg _ (plotLoss_run_cached groups _ rest _ rfl)
  · intro st nsx
    cases h : st.cached_sort_and_color <;> simp [plotLoss_plot_state_step, h]

/-- Division of a finite value by a nonzero finite value. -/
theorem vdiv_some (x d : ℚ) (hd : d ≠ 0) : vdiv (some x) (some d) = some (x / d) := by
  simp [vdiv, hd]

/-- A value multiplied by a zero weight contributes 0 to a nansum, NaN or not. -/
theorem getD_vdiv_vmul_zero (x D : V) : (vdiv (vmul x (some 0)) D).getD 0 = 0 := by
  cases x with
  | none => cases D <;> rfl
  | some a =>
    cases D with
    | none => rfl
    | some d => by_cases hd : d = 0 <;> simp [vmul, vdiv, hd]

/-- In NaN-tolerant mode, the node-weighting of `WeightedMSELoss.forward` only
depends on the elementwise loss at nodes of nonzero weight. -/
theorem mse_weighting_nansum_zero_weight_congr {b n v : Nat} (w : Fin n → ℚ)
    (out out' : Tensor3 b n v) (squash : Bool)
    (h : ∀ i j k, w j ≠ 0 → out' i j k = out i j k) :
    mse_weighting true w out' squash = mse_weighting true w out squash := by
  cases squash
  · simp only [mse_weighting, Bool.false_eq_true, if_false]
    refine congrArg MResult.r0 ?_
    rw [vsum_true_getD, vsum_true_getD]
    refine congrArg some (Finset.sum_congr rfl (fun p _ => ?_))
    by_cases hw : w p.2.1 = 0
    · simp only [hw]
      exact (getD_vdiv_vmul_zero _ _).trans (getD_vdiv_vmul_zero _ _).symm
    · simp only [h p.1 p.2.1 p.2.2 hw]
  · simp only [mse_weighting, if_true]
    refine congrArg MResult.r0 ?_
    rw [vsum_true_getD, vsum_true_getD]
    refine congrArg some (Finset.sum_congr rfl (fun p _ => ?_))
    by_cases hw : w p.2 = 0
    · simp only [hw]
      exact (getD_vdiv_vmul_zero _ _).trans (getD_vdiv_vmul_zero _ _).symm
    · have hm : vmean true Finset.univ (fun k => out' p.1 p.2 k)
          = vmean true Finset.univ (fun k => out p.1 p.2 k) :=
        vmean_congr true _ (fun k _ => h p.1 p.2 k hw)
      simp only [hm]

/-- C4: with `ignore_nans = true` (NaN-ignoring mean/sum in place of mean/sum),
replacing prediction or target entries — in particular by NaN — only at
spatial nodes whose node weight is zero leaves the weighted MSE loss exactly
equal to the loss of the NaN-free input, for either value of squash. -/
theorem nan_at_zero_weight_nodes_preserves_loss {b n v : Nat} (w : Fin n → ℚ)
    (ivar : Option (Fin v → ℚ)) (pred target pred' target' : Tensor3 b n v) (squash : Bool)
    (hnum : ∀ i j k, (pred i j k).isSome = true ∧ (target i j k).isSome = true)
    (hagree : ∀ i j k, w j ≠ 0 → pred' i j k = pred i j k ∧ target' i j k = target i j k) :
    mse_forward true w ivar pred' target' squash = mse_forward true w ivar pred target squash := by
  cases ivar with
  | none =>
    show mse_weighting true w (fun i j k => vsq (vsub (pred' i j k) (target' i j k))) squash
        = mse_weighting true w (fun i j k => vsq (vsub (pred i j k) (target i j k))) squash
    exact mse_weighting_nansum_zero_weight_congr w _ _ squash
      (fun i j k hw => by rw [(hagree i j k hw).1, (hagree i j k hw).2])
  | some iv =>
    show mse_weighting true w
        (fun i j k => vmul (vsq (vsub (pred' i j k) (target' i j k))) (some (iv k))) squash
      = mse_weighting true w
        (fun i j k => vmul (vsq (vsub (pred i j k) (target i j k))) (some (iv k))) squash
    exact mse_weighting_nansum_zero_weight_congr w _ _ squash
      (fun i j k hw => by rw [(hagree i j k hw).1, (hagree i j k hw).2])

/-- Witness for the C4 theorem: NaN at the zero-weight node, squash on. -/
theorem nan_at_zero_weight_nodes_preserves_loss_witness :
    mse_forward true c4_w none c4_pred_nan c4_pred true
      = mse_forward true c4_w none c4_pred c4_pred true :=
  nan_at_zero_weight_nodes_preserves_loss c4_w none c4_pred c4_pred c4_pred_nan c4_pred true
    (by decide)
    (by
      intro i j k hw
      refine ⟨?_, rfl⟩
      have hj : ¬ (j = 0) := by
        intro hj0
        exact hw (by simp [c4_w, hj0])
      simp [c4_pred_nan, c4_pred, hj])

/-- The weight sum over the expanded (batch, nodes) index set. -/
theorem sum_weights_prod2 {b n : Nat} (w : Fin n → ℚ) :
    (∑ p : Fin b × Fin n, w p.2) = (b : ℚ) * ∑ j, w j := by
  rw [Fintype.sum_prod_type]
  simp [Finset.sum_const, Finset.card_univ, nsmul_eq_mul]

/-- The weight sum over the expanded (batch, nodes, variables) index set. -/
theorem sum_weights_prod3 {b n v : Nat} (w : Fin n → ℚ) :
    (∑ p : Fin b × Fin n × Fin v, w p.2.1) = ((b : ℚ) * (v : ℚ)) * ∑ j, w j := by
  simp only [Fintype.sum_prod_type]
  simp only [Finset.sum_const, Finset.card_univ, Fintype.card_fin, nsmul_eq_mul,
    ← Finset.mul_sum]
  ring

/-- The mse node-weighting of an identically-zero elementwise loss is zero. -/
theorem mse_weighting_zero {b n v : Nat} (ig : Bool) (w : Fin n → ℚ) (squash : Bool)
    (hb : 0 < b) (hv : 0 < v) (hpos : 0 < ∑ j, w j) :
    (mse_weighting ig w (zeroT b n v) squash).isZero := by
  have hvq : (0 : ℚ) < (v : ℚ) := by exact_mod_cast hv
  have hbq : (0 : ℚ) < (b : ℚ) := by exact_mod_cast hb
  have hS2 : (∑ p : Fin b × Fin n, w p.2) ≠ 0 := by
    rw [sum_weights_prod2]
    exact ne_of_gt (mul_pos hbq hpos)
  have hS3 : (∑ p : Fin b × Fin n × Fin v, w p.2.1) ≠ 0 := by
    rw [sum_weights_prod3]
    exact ne_of_gt (mul_pos (mul_pos hbq hvq) hpos)
  have huniv : (Finset.univ : Finset (Fin v)).Nonempty := ⟨⟨0, hv⟩, Finset.mem_univ _⟩
  cases squash
  · simp only [mse_weighting, Bool.false_eq_true, if_false, MResult.isZero]
    have hpt : ∀ p ∈ (Finset.univ : Finset (Fin b × Fin n × Fin v)),
        vdiv (vmul (zeroT b n v p.1 p.2.1 p.2.2) (some (w p.2.1)))
            (vsum ig Finset.univ (fun q : Fin b × Fin n × Fin v => some (w q.2.1)))
          = (fun _ : Fin b × Fin n × Fin v => (some 0 : V)) p := by
      intro p _
      rw [vsum_some]
      simp [zeroT, vmul, vdiv, hS3]
    rw [vsum_congr ig _ hpt, vsum_some]
    simp
  · simp only [mse_weighting, if_true, MResult.isZero]
    have hpt : ∀ p ∈ (Finset.univ : Finset (Fin b × Fin n)),
        vdiv (vmul (vmean ig Finset.univ
              (fun k => zeroT b n v p.1 p.2 k)) (some (w p.2)))
            (vsum ig Finset.univ (fun q : Fin b × Fin n => some (w q.2)))
          = (fun _ : Fin b × Fin n => (some 0 : V)) p := by
      intro p _
      rw [vsum_some]
      have hm : vmean ig Finset.univ (fun k => zeroT b n v p.1 p.2 k)
          = vmean ig Finset.univ (fun k : Fin v => some ((0 : ℚ))) := rfl
      rw [hm, vmean_some ig _ _ huniv]
      simp [vmul, vdiv, hS2]
    rw [vsum_congr ig _ hpt, vsum_some]
    simp

/-- The spec-modelled node-weighting of an identically-zero loss is zero. -/
theorem scale_by_node_weights_zero {b n v : Nat} (ig : Bool) (w : Fin n → ℚ) (squash : Bool)
    (hb : 0 < b) (hv : 0 < v) (hpos : 0 < ∑ j, w j) :
    (scale_by_node_weights ig w (zeroT b n v) squash).isZero := by
  have hbq : (0 : ℚ) < (b : ℚ) := by exact_mod_cast hb
  have hS2 : (∑ p : Fin b × Fin n, w p.2) ≠ 0 := by
    rw [sum_weights_prod2]
    exact ne_of_gt (mul_pos hbq hpos)
  have huniv : (Finset.univ : Finset (Fin v)).Nonempty := ⟨⟨0, hv⟩, Finset.mem_univ _⟩
  cases squash
  · simp only [scale_by_node_weights, Bool.false_eq_true, if_false, MResult.isZero]
    intro k
    have hpt : ∀ p ∈ (Finset.univ : Finset (Fin b × Fin n)),
        vmul (zeroT b n v p.1 p.2 k) (some (w p.2))
          = (fun _ : Fin b × Fin n => (some 0 : V)) p := by
      intro p _
      simp [zeroT, vmul]
    rw [vsum_congr ig _ hpt, vsum_some, vsum_some]
    simp [vdiv, hS2]
  · simp only [scale_by_node_weights, if_true, MResult.isZero]
    have hpt : ∀ p ∈ (Finset.univ : Finset (Fin b × Fin n)),
        vmul (vmean ig Finset.univ (fun k => zeroT b n v p.1 p.2 k)) (some (w p.2))
          = (fun _ : Fin b × Fin n => (some 0 : V)) p := by
      intro p _
      have hm : vmean ig Finset.univ (fun k => zeroT b n v p.1 p.2 k)
          = vmean ig Finset.univ (fun k : Fin v => some ((0 : ℚ))) := rfl
      rw [hm, vmean_some ig _ _ huniv]
      simp [vmul]
    rw [vsum_congr ig _ hpt, vsum_some, vsum_some]
    simp [vdiv, hS2]

/-- C2: for any nonnegative node-weight vector of positive sum and any
NaN-free prediction equal to its target (nonempty batch and variable axes),
the weighted MSE loss and the weighted MAE loss are exactly zero, for either
value of squash (and either ignore_nans mode, any variance buffer, and any
feature scaling). -/
theorem weighted_losses_zero_when_pred_equals_target {b n v : Nat} (ig fscale : Bool)
    (w : Fin n → ℚ) (ivar : Option (Fin v → ℚ)) (fw : Fin v → ℚ) (pred : Tensor3 b n v)
    (squash : Bool) (hb : 0 < b) (hv : 0 < v) (hw : ∀ j, 0 ≤ w j) (hpos : 0 < ∑ j, w j)
    (hnum : ∀ i j k, (pred i j k).isSome = true) :
    (mse_forward ig w ivar pred pred squash).isZero ∧
    (mae_forward ig w fscale fw pred pred squash).isZero := by
  have hdiff : ∀ i j k, vsub (pred i j k) (pred i j k) = some 0 := by
    intro i j k
    obtain ⟨a, ha⟩ := Option.isSome_iff_exists.mp (hnum i j k)
    rw [ha]
    simp [vsub]
  constructor
  · have hout : (fun i j k => vsq (vsub (pred i j k) (pred i j k))) = zeroT b n v := by
      funext i j k
      rw [hdiff i j k]
      simp [vsq, zeroT]
    cases ivar with
    | none =>
      show (mse_weighting ig w
          (fun i j k => vsq (vsub (pred i j k) (pred i j k))) squash).isZero
      rw [hout]
      exact mse_weighting_zero ig w squash hb hv hpos
    | some iv =>
      show (mse_weighting ig w (fun i j k =>
          vmul (vsq (vsub (pred i j k) (pred i j k))) (some (iv k))) squash).isZero
      have hout2 : (fun i j k =>
          vmul (vsq (vsub (pred i j k) (pred i j k))) (some (iv k))) = zeroT b n v := by
        funext i j k
        rw [hdiff i j k]
        simp [vsq, vmul, zeroT]
      rw [hout2]
      exact mse_weighting_zero ig w squash hb hv hpos
  · have habs : (fun i j k => vabs (vsub (pred i j k) (pred i j k))) = zeroT b n v := by
      funext i j k
      rw [hdiff i j k]
      simp [vabs, zeroT]
    show (scale_by_node_weights ig w (mae_feature_scale fscale fw
        (fun i j k => vabs (vsub (pred i j k) (pred i j k)))) squash).isZero
    rw [habs]
    have hfs : mae_feature_scale fscale fw (zeroT b n v) = zeroT b n v := by
      cases fscale
      · rfl
      · funext i j k
        simp [mae_feature_scale, vmul, zeroT]
    rw [hfs]
    exact scale_by_node_weights_zero ig w squash hb hv hpos

/-- Witness for the C2 theorem: unit weights, pred = target = 1, squash on. -/
theorem weighted_losses_zero_when_pred_equals_target_witness :
    (mse_forward true (fun _ : Fin 1 => (1 : ℚ)) none c2_pred c2_pred true).isZero ∧
    (mae_forward true (fun _ : Fin 1 => (1 : ℚ)) true (fun _ : Fin 1 => (1 : ℚ))
      c2_pred c2_pred true).isZero :=
  weighted_losses_zero_when_pred_equals_target true true (fun _ : Fin 1 => (1 : ℚ)) none
    (fun _ => 1) c2_pred true (by decide) (by decide)
    (fun _ => zero_le_one) (by simp) (by decide)

/-- Splitting the variable axis out of the product-indexed weighted sum. -/
theorem sum_prod3_split {b n v : Nat} (f : Fin b → Fin n → Fin v → ℚ) (w : Fin n → ℚ) :
    (∑ q : Fin b × Fin n × Fin v, f q.1 q.2.1 q.2.2 * w q.2.1)
      = ∑ p : Fin b × Fin n, (∑ k, f p.1 p.2 k) * w p.2 := by
  simp only [Fintype.sum_prod_type, Finset.sum_mul]

/-- The (batch, nodes, variables) weight sum is v times the (batch, nodes)
weight sum. -/
theorem sum_weights3_eq_mul {b n v : Nat} (w : Fin n → ℚ) :
    (∑ q : Fin b × Fin n × Fin v, w q.2.1) = (v : ℚ) * ∑ p : Fin b × Fin n, w p.2 := by
  rw [sum_weights_prod3, sum_weights_prod2]
  ring

/-- C3: on NaN-free elementwise losses, the node-weighting of
`WeightedMSELoss.forward` equals the spec formula
`sum(out * weights) / sum(weights)` — the normalized weighted sum over the
(expanded) weight tensor — and the value is literally the same whether or not
squash has already averaged the variable axis; the spec-modelled
`scale_by_node_weights` used by the MAE loss satisfies the same formula, with
the variable axis kept pointwise when `squash = false`. -/
theorem node_weighting_is_normalized_weighted_sum {b n v : Nat} (ig : Bool) (w : Fin n → ℚ)
    (out : Fin b → Fin n → Fin v → ℚ) (hb : 0 < b) (hv : 0 < v) (hpos : 0 < ∑ j, w j) :
    mse_weighting ig w (fun i j k => some (out i j k)) true
        = MResult.r0 (some (spec_normalized_weighted_sum w out)) ∧
    mse_weighting ig w (fun i j k => some (out i j k)) false
        = MResult.r0 (some (spec_normalized_weighted_sum w out)) ∧
    scale_by_node_weights ig w (fun i j k => some (out i j k)) true
        = MResult.r0 (some (spec_normalized_weighted_sum w out)) ∧
    scale_by_node_weights ig w (fun i j k => some (out i j k)) false
        = MResult.r1 (fun k => some (spec_normalized_weighted_sum_var w out k)) := by
  have hvq : (0 : ℚ) < (v : ℚ) := by exact_mod_cast hv
  have hbq : (0 : ℚ) < (b : ℚ) := by exact_mod_cast hb
  have hS2 : (∑ p : Fin b × Fin n, w p.2) ≠ 0 := by
    rw [sum_weights_prod2]
    exact ne_of_gt (mul_pos hbq hpos)
  have hS3 : (∑ p : Fin b × Fin n × Fin v, w p.2.1) ≠ 0 := by
    rw [sum_weights_prod3]
    exact ne_of_gt (mul_pos (mul_pos hbq hvq) hpos)
  have huniv : (Finset.univ : Finset (Fin v)).Nonempty := ⟨⟨0, hv⟩, Finset.mem_univ _⟩
  have hmean : ∀ p : Fin b × Fin n,
      vmean ig Finset.univ (fun k => (fun i j k => some (out i j k)) p.1 p.2 k)
        = some ((∑ k, out p.1 p.2 k) / (v : ℚ)) := by
    intro p
    rw [show (fun k => (fun i j k => some (out i j k)) p.1 p.2 k)
        = (fun k => some (out p.1 p.2 k)) from rfl]
    rw [vmean_some ig _ _ huniv]
    simp [Finset.card_univ]
  refine ⟨?_, ?_, ?_, ?_⟩
  · simp only [mse_weighting, if_true]
    refine congrArg MResult.r0 ?_
    have hpt : ∀ p ∈ (Finset.univ : Finset (Fin b × Fin n)),
        vdiv (vmul (vmean ig Finset.univ
              (fun k => (fun i j k => some (out i j k)) p.1 p.2 k)) (some (w p.2)))
            (vsum ig Finset.univ (fun q : Fin b × Fin n => some (w q.2)))
          = (fun p : Fin b × Fin n => some ((∑ k, out p.1 p.2 k) / (v : ℚ) * w p.2
              / (∑ q : Fin b × Fin n, w q.2))) p := by
      intro p _
      rw [vsum_some, hmean p]
      simp only [vmul]
      rw [vdiv_some _ _ hS2]
    rw [vsum_congr ig _ hpt, vsum_some]
    refine congrArg some ?_
    unfold spec_normalized_weighted_sum
    rw [sum_prod3_split, sum_weights3_eq_mul, Finset.sum_div]
    refine Finset.sum_congr rfl (fun p _ => ?_)
    rw [div_mul_eq_mul_div, div_div]
  · simp only [mse_weighting, Bool.false_eq_true, if_false]
    refine congrArg MResult.r0 ?_
    have hpt : ∀ p ∈ (Finset.univ : Finset (Fin b × Fin n × Fin v)),
        vdiv (vmul ((fun i j k => some (out i j k)) p.1 p.2.1 p.2.2) (some (w p.2.1)))
            (vsum ig Finset.univ (fun q : Fin b × Fin n × Fin v => some (w q.2.1)))
          = (fun q : Fin b × Fin n × Fin v => some (out q.1 q.2.1 q.2.2 * w q.2.1
              / (∑ r : Fin b × Fin n × Fin v, w r.2.1))) p := by
      intro p _
      rw [vsum_some]
      simp only [vmul]
      rw [vdiv_some _ _ hS3]
    rw [vsum_congr ig _ hpt, vsum_some]
    refine congrArg some ?_
    rw [← Finset.sum_div]
    rfl
  · simp only [scale_by_node_weights, if_true]
    refine congrArg MResult.r0 ?_
    have hpt : ∀ p ∈ (Finset.univ : Finset (Fin b × Fin n)),
        vmul (vmean ig Finset.univ
            (fun k => (fun i j k => some (out i j k)) p.1 p.2 k)) (some (w p.2))
          = (fun p : Fin b × Fin n =>
              some ((∑ k, out p.1 p.2 k) / (v : ℚ) * w p.2)) p := by
      intro p _
      rw [hmean p]
      simp only [vmul]
    rw [vsum_congr ig _ hpt, vsum_some, vsum_some, vdiv_some _ _ hS2]
    refine congrArg some ?_
    unfold spec_normalized_weighted_sum
    rw [sum_prod3_split, sum_weights3_eq_mul]
    have hnum2 : (∑ p : Fin b × Fin n, (∑ k, out p.1 p.2 k) / (v : ℚ) * w p.2)
        = (∑ p : Fin b × Fin n, (∑ k, out p.1 p.2 k) * w p.2) / (v : ℚ) := by
      rw [Finset.sum_div]
      exact Finset.sum_congr rfl (fun p _ => by rw [div_mul_eq_mul_div])
    rw [hnum2, div_div]
  · simp only [scale_by_node_weights, Bool.false_eq_true, if_false]
    refine congrArg MResult.r1 ?_
    funext k
    have hpt : ∀ p ∈ (Finset.univ : Finset (Fin b × Fin n)),
        vmul ((fun i j k => some (out i j k)) p.1 p.2 k) (some (w p.2))
          = (fun p : Fin b × Fin n => some (out p.1 p.2 k * w p.2)) p := by
      intro p _
      simp only [vmul]
    rw [vsum_congr ig _ hpt, vsum_some, vsum_some, vdiv_some _ _ hS2]
    rfl

/-- Witness for the C3 theorem: one batch, one node of weight 1, one variable,
constant elementwise loss 2, plain (non-NaN) mode. -/
theorem node_weighting_is_normalized_weighted_sum_witness :
    mse_weighting false (fun _ : Fin 1 => (1 : ℚ)) (fun i j k => some (c3_outq i j k)) true
        = MResult.r0 (some (spec_normalized_weighted_sum (fun _ : Fin 1 => (1 : ℚ)) c3_outq)) ∧
    mse_weighting false (fun _ : Fin 1 => (1 : ℚ)) (fun i j k => some (c3_outq i j k)) false
        = MResult.r0 (some (spec_normalized_weighted_sum (fun _ : Fin 1 => (1 : ℚ)) c3_outq)) ∧
    scale_by_node_weights false (fun _ : Fin 1 => (1 : ℚ)) (fun i j k => some (c3_outq i j k))
        true
        = MResult.r0 (some (spec_normalized_weighted_sum (fun _ : Fin 1 => (1 : ℚ)) c3_outq)) ∧
    scale_by_node_weights false (fun _ : Fin 1 => (1 : ℚ)) (fun i j k => some (c3_outq i j k))
        false
        = MResult.r1 (fun k => some (spec_normalized_weighted_sum_var
            (fun _ : Fin 1 => (1 : ℚ)) c3_outq k)) :=
  node_weighting_is_normalized_weighted_sum false (fun _ : Fin 1 => (1 : ℚ)) c3_outq
    (by decide) (by decide) (by simp)

/-- Every list is the getD image of its index range. -/
theorem list_eq_range_map_getD {α : Type} (l : List α) (d : α) :
    l = (List.range l.length).map (fun i => l.getD i d) := by
  induction l with
  | nil => rfl
  | cons a t ih =>
    rw [List.length_cons, List.range_succ_eq_map, List.map_cons, List.map_map]
    refine congrArg₂ List.cons rfl ?_
    exact ih

/-- Counting a value in a mapped list counts preimages. -/
theorem count_map_eq_countP {α : Type} (f : α → String) (l : List α) (s : String) :
    (l.map f).count s = l.countP (fun a => f a == s) := by
  induction l with
  | nil => rfl
  | cons a t ih => simp [List.count_cons, List.countP_cons, ih]

/-- The claim-side base group coincides with the source-side group lookup. -/
theorem spec_base_group_eq_assign (groups : List (String × List String)) (name : String) :
    spec_base_group groups name = assign_group groups name := by
  unfold spec_base_group spec_explicit_group assign_group automatically_determine_group
  cases h : groups.find? (fun g => g.2.contains name) <;> simp [h]

/-- The source reassignment condition (count above one, or explicitly
configured) is the negation of the claim condition (count exactly one and not
configured), for a group that occurs at least once. -/
theorem grouping_if_flip (g : String) (anyb : Bool) (cnt c : Nat) (hcnt : cnt = c)
    (hpos : 0 < c) :
    (if (decide (1 < cnt) || anyb) = true then g else "other")
      = (if (c == 1 && !anyb) = true then "other" else g) := by
  subst hcnt
  cases anyb
  · by_cases hc : cnt = 1
    · simp [hc]
    · have hgt : 1 < cnt := by omega
      simp [hc, hgt]
  · simp

/-- C8: the group assignment computed by
`PlotLoss.sort_and_color_by_parameter_group` agrees, name by name, with the
claim: for more than 15 parameters each name goes to its first explicit group
when it belongs to one and to its first underscore-separated piece otherwise,
then any group holding exactly one parameter and not named in the explicit
configuration is reassigned to "other"; for at most 15 parameters every
parameter keeps its full name as its own group. -/
theorem parameter_grouping_matches_claim (groups : List (String × List String))
    (names : List String) :
    parameters_to_groups groups names
      = (List.range names.length).map (spec_group_of groups names) := by
  by_cases hlen : names.length ≤ 15
  · unfold parameters_to_groups spec_group_of
    simp only [hlen, if_true, if_pos]
    exact list_eq_range_map_getD names ""
  · refine List.ext_getElem ?_ ?_
    · simp [parameters_to_groups, hlen]
    · intro i h1 h2
      have hi : i < names.length := by
        simpa [parameters_to_groups, hlen] using h1
      have hR : (List.map (spec_group_of groups names) (List.range names.length))[i]
          = spec_group_of groups names i := by
        simp
      rw [hR]
      have hL : (parameters_to_groups groups names)[i]
          = (let ptg := names.map (assign_group groups)
             let g := assign_group groups (names.getD i "")
             if 1 < ptg.count g || groups.any (fun q => q.1 == g) then g else "other") := by
        simp only [parameters_to_groups, hlen, if_false, Bool.false_eq_true]
        rw [List.getElem_map, List.getElem_map]
        rw [List.getD_eq_getElem names "" hi]
      rw [hL]
      have hmem : names.getD i "" ∈ names := by
        rw [List.getD_eq_getElem names "" hi]
        exact List.getElem_mem _
      have hbase : spec_base_group groups (names.getD i "")
          = assign_group groups (names.getD i "") :=
        spec_base_group_eq_assign groups _
      have hcount : (names.map (assign_group groups)).count
            (assign_group groups (names.getD i ""))
          = names.countP (fun nm => spec_base_group groups nm
              == assign_group groups (names.getD i "")) := by
        rw [count_map_eq_countP]
        refine List.countP_congr (fun a _ => ?_)
        rw [spec_base_group_eq_assign]
      have hpos : 0 < names.countP (fun nm => spec_base_group groups nm
          == assign_group groups (names.getD i "")) := by
        refine List.countP_pos_iff.mpr ⟨names.getD i "", hmem, ?_⟩
        rw [hbase]
        exact beq_self_eq_true _
      have hspec : spec_group_of groups names i
          = (if (names.countP (fun nm => spec_base_group groups nm
                  == assign_group groups (names.getD i "")) == 1
                && !(groups.any (fun q => q.1 == assign_group groups (names.getD i ""))))
                = true
             then "other" else assign_group groups (names.getD i "")) := by
        unfold spec_group_of
        simp only [hlen, if_false]
        simp only [hbase]
      rw [hspec]
      exact grouping_if_flip _ _ _ _ hcount hpos
